import Mathlib

/-!
Shallow embedding of `cmd/timoni/mod_import_crd.go` (the `timoni mod import crd`
pipeline) and proofs about it.

The pipeline's external collaborators — the multi-document YAML decoder
`ssa.ReadObjects`, the YAML encoder `sigs.k8s.io/yaml.Marshal` and the CUE
importer `engine.Importer.Generate` — are modelled as function parameters
(record `Externals`).  The filesystem is modelled explicitly (`FS`), and every
filesystem-visible action of the run is recorded in an event trace so that
ordering claims ("validation precedes loading") are statable.
-/

namespace Timoni

/-- Metadata returned by a stat call: Go `fs.IsDir()` and `fs.Mode().IsRegular()`. -/
structure FileInfo where
  isDir : Bool
  isRegular : Bool
deriving DecidableEq

/-- Association-list lookup keyed by strings; earlier entries shadow later ones. -/
def lookupStr {α : Type} : List (String × α) → String → Option α
  | [], _ => none
  | (k, v) :: rest, q => if k = q then some v else lookupStr rest q

/-- Model of the filesystem: a stat table and a file-content table.
Updates prepend, so the most recent entry for a path wins. -/
structure FS where
  info : List (String × FileInfo)
  files : List (String × String)
deriving DecidableEq

/-- Stat result for a path (Go `os.Stat`); `none` models a stat error. -/
def FS.statOf (fs : FS) (p : String) : Option FileInfo :=
  lookupStr fs.info p

/-- Content of the file at a path (Go `os.Open` + `io.ReadAll`); `none` models failure. -/
def FS.readFile (fs : FS) (p : String) : Option String :=
  lookupStr fs.files p

/-- Stat entry for a directory. -/
def dirInfo : FileInfo := ⟨true, false⟩

/-- Stat entry for a regular file. -/
def regularInfo : FileInfo := ⟨false, true⟩

/-- Splitting a character list at a separator character; the list of chunks is
never empty. -/
def splitOnChar (sep : Char) : List Char → List (List Char)
  | [] => [[]]
  | c :: cs =>
    if c = sep then [] :: splitOnChar sep cs
    else
      match splitOnChar sep cs with
      | [] => [[c]]
      | chunk :: chunks => (c :: chunk) :: chunks

/-- The slash-separated components of a path. -/
def splitOnSlash (p : String) : List String :=
  (splitOnChar '/' p.data).map (fun cs => String.mk cs)

/-- Joining path components back with slashes. -/
def joinPath : List String → String
  | [] => ""
  | [d] => d
  | d :: ds => d ++ "/" ++ joinPath ds

/-- All slash-separated ancestors of a path, shortest first (the directories that
`os.MkdirAll` would have to create for a clean relative or absolute path). -/
def ancestors (p : String) : List String :=
  let parts := splitOnSlash p
  (List.range parts.length).map (fun i => joinPath (parts.take (i + 1)))

/-- Model of `os.MkdirAll`: marks the path and all its ancestors as directories.
It succeeds when the directories already exist (idempotent); I/O failure is not
modelled, as no claim concerns it. -/
def FS.mkdirAll (fs : FS) (p : String) : FS :=
  { fs with info := ((p :: ancestors p).map (fun d => (d, dirInfo))) ++ fs.info }

/-- Model of `os.WriteFile`: creates or truncates the file at `p` with content `c`. -/
def FS.writeFile (fs : FS) (p : String) (c : String) : FS :=
  { fs with files := (p, c) :: fs.files, info := (p, regularInfo) :: fs.info }

/-- Filesystem-visible actions of one run, in order. -/
inductive Event where
  | stat (p : String)
  | openRead (p : String)
  | generate (buf : String)
  | mkdirAll (p : String)
  | writeFile (p : String) (content : String)
deriving DecidableEq

deriving instance DecidableEq for Except

/-- Outcome of one run: the returned error (if any), the final filesystem, and
the trace of filesystem-visible actions. -/
structure RunResult where
  res : Except String Unit
  fs : FS
  trace : List Event
deriving DecidableEq

/-- A decoded Kubernetes object: its `kind` string plus an opaque payload that
stands for all its remaining fields. -/
structure KObject where
  kind : String
  payload : String
deriving DecidableEq

/-- The external collaborators of the pipeline: the multi-document YAML decoder
(`ssa.ReadObjects`), the YAML encoder (`sigs.k8s.io/yaml.Marshal`), and the CUE
importer (`engine.Importer.Generate`, with the header fixed at
`engine.NewImporter` time). -/
structure Externals where
  readObjects : String → Except String (List KObject)
  marshal : KObject → Except String String
  generate : String → String → Except String (List (String × String))

/-- Model of Go `path.Join` on two elements, for arguments that are already
clean: `Join` drops empty elements, otherwise joins with a slash. -/
def pathJoin (a b : String) : String :=
  if a = "" then b else if b = "" then a else a ++ "/" ++ b

/-- The `header` constant of `mod_import_crd.go`, verbatim. -/
def header : String :=
  "// Code generated by timoni. DO NOT EDIT.\n\n//timoni:generate timoni import crd -f "

/-- The `Example` text of `importCrdCmd`, verbatim: the documented invocation of
this subcommand. -/
def importCrdCmdExample : String :=
  "  # generate CUE definitions from a local YAML file\n  timoni mod import crd -f crds.yaml\n"

/-- Leading blanks of a character list, removed. -/
def dropSpaces : List Char → List Char
  | ' ' :: cs => dropSpaces cs
  | cs => cs

/-- The command line the `Example` documents: its second line, with the leading
indentation removed. -/
def documentedInvocation : String :=
  String.mk (dropSpaces ((splitOnChar '\n' importCrdCmdExample.data).getD 1 []))

/-- Modelled from the spec: `engine.Importer.Generate` lives in the
`internal/engine` package, which is not under src/.  Per the spec, every
generated source file begins with the provenance header the importer was
constructed with; the schema translation itself is the opaque `core`. -/
def importerGenerate (core : String → Except String (List (String × String)))
    (hdr buf : String) : Except String (List (String × String)) :=
  (core buf).map (fun l => l.map (fun kv => (kv.1, hdr ++ kv.2)))

/-- Strict lexicographic comparison of character lists, byte-wise in the sense
of Go string comparison (UTF-8 byte order agrees with code-point order). -/
def charListLtb : List Char → List Char → Bool
  | [], [] => false
  | [], _ :: _ => true
  | _ :: _, [] => false
  | a :: as, b :: bs => if a < b then true else if b < a then false else charListLtb as bs

/-- Strict lexicographic order on strings, as Go compares strings. -/
def strLtb (a b : String) : Bool := charListLtb a.data b.data

/-- Reflexive lexicographic order on strings: the order `sort.Strings` sorts by. -/
def strLeb (a b : String) : Bool := strLtb a b || a == b

/-- The `modRoot` seen by the run: Go sets `importCrdArgs.modRoot = args[0]`
when a positional argument is present, and otherwise leaves it at the string
zero value, the empty string (no flag binds it). -/
def modRootOf (args : List String) : String :=
  match args with
  | [] => ""
  | a :: _ => a

/-- The CRD filter and re-serializer loop of `runImportCrdCmd`: iterate the
decoded objects in order; for each object whose kind equals
`CustomResourceDefinition`, append a separator line and its re-encoding to the
accumulated buffer (`strings.Builder`); abort on an encoding error. -/
def filterCRDs (marshal : KObject → Except String String) :
    List KObject → String → Except String String
  | [], acc => .ok acc
  | o :: rest, acc =>
    if o.kind = "CustomResourceDefinition" then
      let acc := acc ++ "---\n"
      match marshal o with
      | .error e => .error ("marshaling CRD failed: " ++ e)
      | .ok data => filterCRDs marshal rest (acc ++ data)
    else
      filterCRDs marshal rest acc

/-- Target directory for one generation key: `path.Join(cueModDir, "gen", k)`. -/
def genDir (cueModDir k : String) : String := pathJoin (pathJoin cueModDir "gen") k

/-- Target file for one generation key: the fixed name `types_gen.cue` in its
target directory. -/
def genFile (cueModDir k : String) : String := pathJoin (genDir cueModDir k) "types_gen.cue"

/-- The writer loop of `runImportCrdCmd`: for each key (already sorted), create
`<cueModDir>/gen/<key>` and write `crds[key]` to `types_gen.cue` inside it. -/
def writeDefs (cueModDir : String) (crds : List (String × String)) :
    List String → FS → List Event → RunResult
  | [], fs, tr => ⟨.ok (), fs, tr⟩
  | k :: keys, fs, tr =>
    let dstDir := genDir cueModDir k
    let dstFile := genFile cueModDir k
    let content := (lookupStr crds k).getD ""
    writeDefs cueModDir crds keys ((fs.mkdirAll dstDir).writeFile dstFile content)
      (tr ++ [Event.mkdirAll dstDir, Event.writeFile dstFile content])

/-- Generation and writing: build the importer with `header + crdFile`, call
`Generate` on the filtered buffer, propagate its error unchanged (`return err`),
sort the map keys with `sort.Strings` and run the writer loop. -/
def generateAndWrite (g : Externals) (fs0 : FS) (cueModDir crdFile buf : String) : RunResult :=
  let tr := [Event.stat cueModDir, Event.stat crdFile, Event.openRead crdFile,
             Event.generate buf]
  match g.generate (header ++ crdFile) buf with
  | .error e => ⟨.error e, fs0, tr⟩
  | .ok crds =>
    writeDefs cueModDir crds
      (List.insertionSort (fun a b => strLeb a b = true) (crds.map Prod.fst)) fs0 tr

/-- Decoding and filtering: `ssa.ReadObjects` on the raw bytes, wrapping a
decode failure as a parse error; then the CRD filter; then generation. -/
def decodeAndFilter (g : Externals) (fs0 : FS) (cueModDir crdFile crdData : String) : RunResult :=
  let tr := [Event.stat cueModDir, Event.stat crdFile, Event.openRead crdFile]
  match g.readObjects crdData with
  | .error e => ⟨.error ("parsing CRDs failed: " ++ e), fs0, tr⟩
  | .ok objects =>
    match filterCRDs g.marshal objects "" with
    | .error e => ⟨.error e, fs0, tr⟩
    | .ok buf => generateAndWrite g fs0 cueModDir crdFile buf

/-- Source loading: `os.Stat` on the source path, requiring a regular file
(otherwise the path-not-found error), then open and read it fully. -/
def loadSource (g : Externals) (fs0 : FS) (cueModDir crdFile : String) : RunResult :=
  match fs0.statOf crdFile with
  | none => ⟨.error ("path not found: " ++ crdFile), fs0,
             [Event.stat cueModDir, Event.stat crdFile]⟩
  | some fi =>
    if fi.isRegular then
      match fs0.readFile crdFile with
      | none => ⟨.error ("open " ++ crdFile), fs0,
                 [Event.stat cueModDir, Event.stat crdFile, Event.openRead crdFile]⟩
      | some crdData => decodeAndFilter g fs0 cueModDir crdFile crdData
    else
      ⟨.error ("path not found: " ++ crdFile), fs0,
       [Event.stat cueModDir, Event.stat crdFile]⟩

/-- The whole `runImportCrdCmd`: take the module root from the first positional
argument (empty string when absent), validate that `path.Join(modRoot, "cue.mod")`
stats as a directory, then load, decode, filter, generate and write. -/
def runImportCrdCmd (g : Externals) (fs0 : FS) (args : List String) (crdFile : String) :
    RunResult :=
  let modRoot := modRootOf args
  let cueModDir := pathJoin modRoot "cue.mod"
  match fs0.statOf cueModDir with
  | none => ⟨.error ("cue.mod not found in the module path " ++ modRoot), fs0,
             [Event.stat cueModDir]⟩
  | some fi =>
    if fi.isDir then
      loadSource g fs0 cueModDir crdFile
    else
      ⟨.error ("cue.mod not found in the module path " ++ modRoot), fs0,
       [Event.stat cueModDir]⟩

/-- Concatenation of a list of document strings, in order. -/
def concatDocs : List String → String
  | [] => ""
  | d :: ds => d ++ concatDocs ds

/-! Helper lemmas about the CRD filter loop. -/

/-- When every CRD object encodes successfully, the filter loop appends to its
accumulator exactly the separator-prefixed encodings of the CRD objects, in
input order. -/
theorem filterCRDs_ok_of_marshal_ok (m : KObject → Except String String)
    (enc : KObject → String) (objs : List KObject)
    (h : ∀ o ∈ objs, o.kind = "CustomResourceDefinition" → m o = .ok (enc o)) :
    ∀ acc, filterCRDs m objs acc =
      .ok (acc ++ concatDocs ((objs.filter
          (fun o => o.kind = "CustomResourceDefinition")).map
        (fun o => "---\n" ++ enc o))) := by
  induction objs with
  | nil => intro acc; simp [filterCRDs, concatDocs, String.append_empty]
  | cons o rest ih =>
    intro acc
    have hrest := fun x hx hkx => h x (List.mem_cons_of_mem o hx) hkx
    by_cases hk : o.kind = "CustomResourceDefinition"
    · have hm : m o = .ok (enc o) := h o (List.mem_cons_self o rest) hk
      simp only [filterCRDs, hk, if_true, hm]
      rw [ih hrest]
      simp [List.filter_cons, hk, concatDocs, String.append_assoc]
    · simp only [filterCRDs, hk, if_false]
      rw [ih hrest]
      simp [List.filter_cons, hk]

/-- Objects of a kind other than `CustomResourceDefinition` contribute nothing:
when no object is a CRD, the filter loop returns its accumulator unchanged. -/
theorem filterCRDs_no_crd (m : KObject → Except String String) (objs : List KObject)
    (h : ∀ o ∈ objs, o.kind ≠ "CustomResourceDefinition") :
    ∀ acc, filterCRDs m objs acc = .ok acc := by
  induction objs with
  | nil => intro acc; simp [filterCRDs]
  | cons o rest ih =>
    intro acc
    have hk := h o (List.mem_cons_self o rest)
    simp only [filterCRDs, hk, if_false]
    exact ih (fun x hx => h x (List.mem_cons_of_mem o hx)) acc

/-! Helper lemmas about paths. -/

theorem pathJoin_of_ne (a b : String) (ha : a ≠ "") (hb : b ≠ "") :
    pathJoin a b = a ++ "/" ++ b := by
  unfold pathJoin
  rw [if_neg ha, if_neg hb]

theorem pathJoin_empty_left (b : String) : pathJoin "" b = b := by
  simp [pathJoin]

theorem pathJoin_empty_right (a : String) : pathJoin a "" = a := by
  unfold pathJoin
  by_cases ha : a = "" <;> simp [ha]

theorem pathJoin_ne_empty (a b : String) (hb : b ≠ "") : pathJoin a b ≠ "" := by
  unfold pathJoin
  by_cases ha : a = ""
  · simpa [ha] using hb
  · rw [if_neg ha, if_neg hb]
    intro h
    have hl := congrArg String.length h
    rw [String.length_append, String.length_append] at hl
    have h1 : ("/" : String).length = 1 := rfl
    have h0 : ("" : String).length = 0 := rfl
    omega

theorem genDir_ne_empty (c k : String) : genDir c k ≠ "" := by
  unfold genDir
  by_cases hk : k = ""
  · subst hk
    rw [pathJoin_empty_right]
    exact pathJoin_ne_empty c "gen" (by decide)
  · exact pathJoin_ne_empty _ k hk

theorem str_append_cancel_right (a b c : String) (h : a ++ c = b ++ c) : a = b := by
  apply String.ext
  have hd := congrArg String.data h
  rw [String.data_append, String.data_append] at hd
  exact List.append_cancel_right hd

theorem str_append_cancel_left (a b c : String) (h : a ++ b = a ++ c) : b = c := by
  apply String.ext
  have hd := congrArg String.data h
  rw [String.data_append, String.data_append] at hd
  exact List.append_cancel_left hd

theorem self_ne_append_slash (d s : String) : d ≠ d ++ "/" ++ s := by
  intro h
  have hl := congrArg String.length h
  rw [String.length_append, String.length_append] at hl
  have h1 : ("/" : String).length = 1 := rfl
  omega

/-- Distinct generation keys are written to distinct target files. -/
theorem genFile_injective (c k k' : String) (h : genFile c k = genFile c k') : k = k' := by
  unfold genFile at h
  rw [pathJoin_of_ne _ _ (genDir_ne_empty c k) (by decide),
      pathJoin_of_ne _ _ (genDir_ne_empty c k') (by decide)] at h
  have hdir : genDir c k = genDir c k' :=
    str_append_cancel_right _ _ _ (str_append_cancel_right _ _ _ h)
  unfold genDir at hdir
  have hd : pathJoin c "gen" ≠ "" := pathJoin_ne_empty c "gen" (by decide)
  by_cases hk : k = "" <;> by_cases hk' : k' = ""
  · rw [hk, hk']
  · subst hk
    rw [pathJoin_empty_right, pathJoin_of_ne _ _ hd hk'] at hdir
    exact absurd hdir (self_ne_append_slash _ _)
  · subst hk'
    rw [pathJoin_empty_right, pathJoin_of_ne _ _ hd hk] at hdir
    exact absurd hdir.symm (self_ne_append_slash _ _)
  · rw [pathJoin_of_ne _ _ hd hk, pathJoin_of_ne _ _ hd hk'] at hdir
    rw [String.append_assoc, String.append_assoc] at hdir
    exact str_append_cancel_left _ _ _ (str_append_cancel_left _ _ _ hdir)

/-! Helper lemmas about the filesystem model. -/

theorem lookupStr_map_const {α : Type} (c : α) (l : List String)
    (rest : List (String × α)) (q : String) :
    lookupStr ((l.map (fun d => (d, c))) ++ rest) q =
      if q ∈ l then some c else lookupStr rest q := by
  induction l with
  | nil => simp [lookupStr]
  | cons d l ih =>
    by_cases hd : d = q
    · subst hd
      simp [lookupStr]
    · have hq : ¬ (q = d) := fun hqe => hd hqe.symm
      simp [lookupStr, hd, List.mem_cons, hq, ih]

/-- `MkdirAll` marks the requested directory and each of its ancestors as an
existing directory; it is a total (always-succeeding) operation in the model,
in particular it succeeds when the directory already exists. -/
theorem statOf_mkdirAll (fs : FS) (p q : String) (h : q = p ∨ q ∈ ancestors p) :
    (fs.mkdirAll p).statOf q = some dirInfo := by
  show lookupStr (((p :: ancestors p).map (fun d => (d, dirInfo))) ++ fs.info) q = _
  rw [lookupStr_map_const]
  have hmem : q ∈ p :: ancestors p := by
    rcases h with h | h
    · exact h ▸ List.mem_cons_self p _
    · exact List.mem_cons_of_mem p h
  rw [if_pos hmem]

theorem readFile_writeFile (fs : FS) (p c q : String) :
    (fs.writeFile p c).readFile q = if p = q then some c else fs.readFile q := rfl

theorem readFile_mkdirAll (fs : FS) (p q : String) :
    (fs.mkdirAll p).readFile q = fs.readFile q := rfl

/-! Helper lemmas about the writer loop. -/

theorem writeDefs_res (c : String) (crds : List (String × String)) :
    ∀ (ks : List String) (fs : FS) (tr : List Event),
      (writeDefs c crds ks fs tr).res = .ok () := by
  intro ks
  induction ks with
  | nil => intro fs tr; rfl
  | cons k ks ih =>
    intro fs tr
    simpa only [writeDefs] using ih _ _

theorem writeDefs_trace (c : String) (crds : List (String × String)) :
    ∀ (ks : List String) (fs : FS) (tr : List Event),
      (writeDefs c crds ks fs tr).trace =
        tr ++ ks.flatMap (fun k =>
          [Event.mkdirAll (genDir c k),
           Event.writeFile (genFile c k) ((lookupStr crds k).getD "")]) := by
  intro ks
  induction ks with
  | nil => intro fs tr; simp [writeDefs]
  | cons k ks ih =>
    intro fs tr
    simp only [writeDefs]
    rw [ih]
    simp [List.flatMap_cons, List.append_assoc]

theorem writeDefs_readFile_of_not_target (c : String) (crds : List (String × String)) :
    ∀ (ks : List String) (fs : FS) (tr : List Event) (p : String),
      (∀ k ∈ ks, genFile c k ≠ p) →
      (writeDefs c crds ks fs tr).fs.readFile p = fs.readFile p := by
  intro ks
  induction ks with
  | nil => intro fs tr p _; rfl
  | cons k ks ih =>
    intro fs tr p h
    simp only [writeDefs]
    rw [ih _ _ _ (fun k' hk' => h k' (List.mem_cons_of_mem k hk'))]
    rw [readFile_writeFile, if_neg (h k (List.mem_cons_self k ks))]
    exact readFile_mkdirAll fs _ p

/-- After the writer loop, the file written for each key holds exactly the
generated bytes for that key, regardless of any prior content at that path. -/
theorem writeDefs_readFile_target (c : String) (crds : List (String × String)) :
    ∀ (ks : List String) (fs : FS) (tr : List Event) (k : String),
      ks.Nodup → k ∈ ks →
      (writeDefs c crds ks fs tr).fs.readFile (genFile c k) =
        some ((lookupStr crds k).getD "") := by
  intro ks
  induction ks with
  | nil => intro fs tr k _ hmem; exact absurd hmem (List.not_mem_nil k)
  | cons k0 ks ih =>
    intro fs tr k hnd hmem
    have hk0 : k0 ∉ ks := (List.nodup_cons.mp hnd).1
    have hnd' : ks.Nodup := (List.nodup_cons.mp hnd).2
    simp only [writeDefs]
    rcases List.mem_cons.mp hmem with rfl | hmem'
    · rw [writeDefs_readFile_of_not_target _ _ _ _ _ _
        (fun k' hk' hEq => hk0 ((genFile_injective c k' k hEq) ▸ hk'))]
      rw [readFile_writeFile, if_pos rfl]
    · exact ih _ _ k hnd' hmem'

/-! Order properties of the string comparison used by the writer. -/

theorem charListLtb_trichotomy : ∀ as bs : List Char,
    charListLtb as bs = true ∨ as = bs ∨ charListLtb bs as = true
  | [], [] => Or.inr (Or.inl rfl)
  | [], _ :: _ => Or.inl rfl
  | _ :: _, [] => Or.inr (Or.inr rfl)
  | a :: as, b :: bs => by
    rcases lt_trichotomy a b with hab | hab | hab
    · exact Or.inl (by simp [charListLtb, hab])
    · subst hab
      rcases charListLtb_trichotomy as bs with h | h | h
      · exact Or.inl (by simp [charListLtb, h])
      · exact Or.inr (Or.inl (by rw [h]))
      · exact Or.inr (Or.inr (by simp [charListLtb, h]))
    · exact Or.inr (Or.inr (by simp [charListLtb, hab, asymm hab]))

theorem charListLtb_trans : ∀ as bs cs : List Char,
    charListLtb as bs = true → charListLtb bs cs = true → charListLtb as cs = true
  | [], [], _, h, _ => by simp [charListLtb] at h
  | [], _ :: _, [], _, h => by simp [charListLtb] at h
  | [], _ :: _, _ :: _, _, _ => rfl
  | _ :: _, [], _, h, _ => by simp [charListLtb] at h
  | _ :: _, _ :: _, [], _, h => by simp [charListLtb] at h
  | a :: as, b :: bs, c :: cs, h1, h2 => by
    rcases lt_trichotomy a b with hab | hab | hab
    · rcases lt_trichotomy b c with hbc | hbc | hbc
      · exact (by simp [charListLtb, lt_trans hab hbc])
      · subst hbc; exact (by simp [charListLtb, hab])
      · simp [charListLtb, hbc, asymm hbc] at h2
    · subst hab
      rcases lt_trichotomy a c with hbc | hbc | hbc
      · exact (by simp [charListLtb, hbc])
      · subst hbc
        simp only [charListLtb, lt_irrefl, if_false] at h1 h2 ⊢
        exact charListLtb_trans as bs cs h1 h2
      · simp [charListLtb, hbc, asymm hbc] at h2
    · simp [charListLtb, hab, asymm hab] at h1

theorem strLeb_total (a b : String) : strLeb a b = true ∨ strLeb b a = true := by
  unfold strLeb strLtb
  rcases charListLtb_trichotomy a.data b.data with h | h | h
  · exact Or.inl (by simp [h])
  · exact Or.inl (by simp [String.ext h])
  · exact Or.inr (by simp [h])

theorem strLeb_trans (a b c : String) (h1 : strLeb a b = true) (h2 : strLeb b c = true) :
    strLeb a c = true := by
  unfold strLeb strLtb at h1 h2 ⊢
  simp only [Bool.or_eq_true, beq_iff_eq] at h1 h2 ⊢
  rcases h1 with h1 | h1
  · rcases h2 with h2 | h2
    · exact Or.inl (charListLtb_trans _ _ _ h1 h2)
    · subst h2; exact Or.inl h1
  · subst h1; exact h2

theorem strLtb_of_strLeb_of_ne (a b : String) (h : strLeb a b = true) (hne : a ≠ b) :
    strLtb a b = true := by
  unfold strLeb at h
  simp only [Bool.or_eq_true, beq_iff_eq] at h
  rcases h with h | h
  · exact h
  · exact absurd h hne

instance : IsTotal String (fun a b => strLeb a b = true) := ⟨strLeb_total⟩

instance : IsTrans String (fun a b => strLeb a b = true) := ⟨strLeb_trans⟩

/-! Reduction of the run under explicit outcomes of its stages. -/

/-- When the module marker does not stat as a directory, the run stops with the
module error having touched nothing but that one stat. -/
theorem run_module_invalid (g : Externals) (fs0 : FS) (args : List String) (f : String)
    (hm : ∀ di, fs0.statOf (pathJoin (modRootOf args) "cue.mod") = some di →
      di.isDir = false) :
    runImportCrdCmd g fs0 args f =
      ⟨.error ("cue.mod not found in the module path " ++ modRootOf args), fs0,
       [Event.stat (pathJoin (modRootOf args) "cue.mod")]⟩ := by
  cases hstat : fs0.statOf (pathJoin (modRootOf args) "cue.mod") with
  | none => simp [runImportCrdCmd, hstat]
  | some di => simp [runImportCrdCmd, hstat, hm di hstat]

/-- When the module marker is fine but the source path does not stat as a
regular file, the run stops with the path error after the two stats only. -/
theorem run_source_invalid (g : Externals) (fs0 : FS) (args : List String) (f : String)
    (di : FileInfo)
    (hdir : fs0.statOf (pathJoin (modRootOf args) "cue.mod") = some di)
    (hdi : di.isDir = true)
    (hs : ∀ fi, fs0.statOf f = some fi → fi.isRegular = false) :
    runImportCrdCmd g fs0 args f =
      ⟨.error ("path not found: " ++ f), fs0,
       [Event.stat (pathJoin (modRootOf args) "cue.mod"), Event.stat f]⟩ := by
  cases hstat : fs0.statOf f with
  | none => simp [runImportCrdCmd, loadSource, hdir, hdi, hstat]
  | some fi => simp [runImportCrdCmd, loadSource, hdir, hdi, hstat, hs fi hstat]

/-- When the source file cannot be read after a successful stat, the run stops
with the raw open error. -/
theorem run_open_failed (g : Externals) (fs0 : FS) (args : List String) (f : String)
    (di fi : FileInfo)
    (hdir : fs0.statOf (pathJoin (modRootOf args) "cue.mod") = some di)
    (hdi : di.isDir = true)
    (hfile : fs0.statOf f = some fi) (hfi : fi.isRegular = true)
    (hdata : fs0.readFile f = none) :
    runImportCrdCmd g fs0 args f =
      ⟨.error ("open " ++ f), fs0,
       [Event.stat (pathJoin (modRootOf args) "cue.mod"), Event.stat f,
        Event.openRead f]⟩ := by
  simp [runImportCrdCmd, loadSource, hdir, hdi, hfile, hfi, hdata]

/-- When decoding fails, the run stops with the parse error wrapped around the
decoder's own error. -/
theorem run_decode_failed (g : Externals) (fs0 : FS) (args : List String) (f : String)
    (di fi : FileInfo) (data e : String)
    (hdir : fs0.statOf (pathJoin (modRootOf args) "cue.mod") = some di)
    (hdi : di.isDir = true)
    (hfile : fs0.statOf f = some fi) (hfi : fi.isRegular = true)
    (hdata : fs0.readFile f = some data)
    (hobjs : g.readObjects data = .error e) :
    runImportCrdCmd g fs0 args f =
      ⟨.error ("parsing CRDs failed: " ++ e), fs0,
       [Event.stat (pathJoin (modRootOf args) "cue.mod"), Event.stat f,
        Event.openRead f]⟩ := by
  simp [runImportCrdCmd, loadSource, decodeAndFilter, hdir, hdi, hfile, hfi, hdata, hobjs]

/-- When the filter loop fails (a CRD could not be re-encoded), the run stops
with the filter error as produced by the loop. -/
theorem run_filter_failed (g : Externals) (fs0 : FS) (args : List String) (f : String)
    (di fi : FileInfo) (data e : String) (objs : List KObject)
    (hdir : fs0.statOf (pathJoin (modRootOf args) "cue.mod") = some di)
    (hdi : di.isDir = true)
    (hfile : fs0.statOf f = some fi) (hfi : fi.isRegular = true)
    (hdata : fs0.readFile f = some data)
    (hobjs : g.readObjects data = .ok objs)
    (hbuf : filterCRDs g.marshal objs "" = .error e) :
    runImportCrdCmd g fs0 args f =
      ⟨.error e, fs0,
       [Event.stat (pathJoin (modRootOf args) "cue.mod"), Event.stat f,
        Event.openRead f]⟩ := by
  simp [runImportCrdCmd, loadSource, decodeAndFilter, hdir, hdi, hfile, hfi, hdata,
        hobjs, hbuf]

/-- When generation fails, the run returns the generator's error verbatim, with
no added context. -/
theorem run_generate_failed (g : Externals) (fs0 : FS) (args : List String) (f : String)
    (di fi : FileInfo) (data buf e : String) (objs : List KObject)
    (hdir : fs0.statOf (pathJoin (modRootOf args) "cue.mod") = some di)
    (hdi : di.isDir = true)
    (hfile : fs0.statOf f = some fi) (hfi : fi.isRegular = true)
    (hdata : fs0.readFile f = some data)
    (hobjs : g.readObjects data = .ok objs)
    (hbuf : filterCRDs g.marshal objs "" = .ok buf)
    (hgen : g.generate (header ++ f) buf = .error e) :
    runImportCrdCmd g fs0 args f =
      ⟨.error e, fs0,
       [Event.stat (pathJoin (modRootOf args) "cue.mod"), Event.stat f,
        Event.openRead f, Event.generate buf]⟩ := by
  simp [runImportCrdCmd, loadSource, decodeAndFilter, generateAndWrite, hdir, hdi,
        hfile, hfi, hdata, hobjs, hbuf, hgen]

/-- When every stage succeeds, the run is the writer loop over the sorted keys,
started on the initial filesystem with the load and generation trace. -/
theorem run_reaches_writer (g : Externals) (fs0 : FS) (args : List String) (f : String)
    (di fi : FileInfo) (data buf : String) (objs : List KObject)
    (crds : List (String × String))
    (hdir : fs0.statOf (pathJoin (modRootOf args) "cue.mod") = some di)
    (hdi : di.isDir = true)
    (hfile : fs0.statOf f = some fi) (hfi : fi.isRegular = true)
    (hdata : fs0.readFile f = some data)
    (hobjs : g.readObjects data = .ok objs)
    (hbuf : filterCRDs g.marshal objs "" = .ok buf)
    (hgen : g.generate (header ++ f) buf = .ok crds) :
    runImportCrdCmd g fs0 args f =
      writeDefs (pathJoin (modRootOf args) "cue.mod") crds
        (List.insertionSort (fun a b => strLeb a b = true) (crds.map Prod.fst)) fs0
        [Event.stat (pathJoin (modRootOf args) "cue.mod"), Event.stat f,
         Event.openRead f, Event.generate buf] := by
  simp [runImportCrdCmd, loadSource, decodeAndFilter, generateAndWrite, hdir, hdi,
        hfile, hfi, hdata, hobjs, hbuf, hgen]

/-- When the module marker stats as a directory, the run is exactly the source
loading stage. -/
theorem run_valid_module (g : Externals) (fs0 : FS) (args : List String) (f : String)
    (di : FileInfo)
    (hdir : fs0.statOf (pathJoin (modRootOf args) "cue.mod") = some di)
    (hdi : di.isDir = true) :
    runImportCrdCmd g fs0 args f =
      loadSource g fs0 (pathJoin (modRootOf args) "cue.mod") f := by
  simp [runImportCrdCmd, hdir, hdi]

/-- Whatever happens after module validation, the first two filesystem actions
of the loading stage are the marker stat and the source stat. -/
theorem loadSource_trace_take_two (g : Externals) (fs : FS) (c f : String) :
    (loadSource g fs c f).trace.take 2 = [Event.stat c, Event.stat f] := by
  rcases hF : fs.statOf f with _ | fi
  · simp [loadSource, hF]
  · cases hfi : fi.isRegular
    · simp [loadSource, hF, hfi]
    · rcases hD : fs.readFile f with _ | data
      · simp [loadSource, hF, hfi, hD]
      · rcases hO : g.readObjects data with e | objs
        · simp [loadSource, decodeAndFilter, hF, hfi, hD, hO]
        · rcases hB : filterCRDs g.marshal objs "" with e | buf
          · simp [loadSource, decodeAndFilter, hF, hfi, hD, hO, hB]
          · rcases hG : g.generate (header ++ f) buf with e | crds
            · simp [loadSource, decodeAndFilter, generateAndWrite, hF, hfi, hD, hO, hB, hG]
            · simp [loadSource, decodeAndFilter, generateAndWrite, hF, hfi, hD, hO, hB, hG,
                    writeDefs_trace]

/-- A write event recorded by the writer loop determines the final content at
its path, provided the keys are distinct. -/
theorem writeDefs_writeFile_event_content (c : String) (crds : List (String × String))
    (ks : List String) (fs : FS) (tr : List Event) (hnd : ks.Nodup) (p cont : String)
    (hmem : Event.writeFile p cont ∈ ks.flatMap (fun k =>
      [Event.mkdirAll (genDir c k),
       Event.writeFile (genFile c k) ((lookupStr crds k).getD "")])) :
    (writeDefs c crds ks fs tr).fs.readFile p = some cont := by
  rw [List.mem_flatMap] at hmem
  rcases hmem with ⟨k, hk, he⟩
  simp only [List.mem_cons, List.not_mem_nil, or_false] at he
  rcases he with he | he
  · exact absurd he (by simp)
  · have hp : p = genFile c k := by injection he
    have hc : cont = (lookupStr crds k).getD "" := by injection he
    subst hp
    subst hc
    exact writeDefs_readFile_target c crds ks fs tr k hnd hk

/-- The filter loop aborts at the first CRD whose re-encoding fails, whatever
objects follow it. -/
theorem filterCRDs_error_at_first_bad (m : KObject → Except String String)
    (enc : KObject → String) (bad : KObject) (cause : String)
    (hbadk : bad.kind = "CustomResourceDefinition")
    (hbadm : m bad = .error cause) :
    ∀ (pre : List KObject),
      (∀ o ∈ pre, o.kind = "CustomResourceDefinition" → m o = .ok (enc o)) →
      ∀ (rest : List KObject) (acc : String),
        filterCRDs m (pre ++ bad :: rest) acc =
          .error ("marshaling CRD failed: " ++ cause) := by
  intro pre
  induction pre with
  | nil =>
    intro _ rest acc
    simp only [List.nil_append, filterCRDs, hbadk, if_true, hbadm]
  | cons o pre ih =>
    intro h rest acc
    have hrest := fun x hx hkx => h x (List.mem_cons_of_mem o hx) hkx
    by_cases hk : o.kind = "CustomResourceDefinition"
    · have hm : m o = .ok (enc o) := h o (List.mem_cons_self o pre) hk
      simp only [List.cons_append, filterCRDs, hk, if_true, hm]
      exact ih hrest rest _
    · simp only [List.cons_append, filterCRDs, hk, if_false]
      exact ih hrest rest acc

/-! Concrete sample data shared by the witnesses. -/

/-- A sample decoded CRD object. -/
def sampleCRD : KObject := ⟨"CustomResourceDefinition", "widgets.example.com"⟩

/-- A sample decoded non-CRD object. -/
def sampleCM : KObject := ⟨"ConfigMap", "cm"⟩

/-- A sample deterministic YAML encoding of an object. -/
def sampleEnc (o : KObject) : String := "kind: " ++ o.kind ++ "\n"

/-- A sample filesystem holding a module marker directory and a source file. -/
def sampleFS : FS :=
  ⟨[("cue.mod", dirInfo), ("crds.yaml", regularInfo)], [("crds.yaml", "RAW")]⟩

/-- Sample externals: decoding yields one CRD and one ConfigMap, encoding is
`sampleEnc`, and generation returns a two-key map whose keys are deliberately
listed out of order. -/
def sampleExt : Externals where
  readObjects := fun _ => .ok [sampleCRD, sampleCM]
  marshal := fun o => .ok (sampleEnc o)
  generate := fun _ buf => .ok [("b.example.com", buf), ("a.example.com", "defs")]

/-- A filesystem with no module marker anywhere. -/
def fsNoMod : FS := ⟨[("crds.yaml", regularInfo)], [("crds.yaml", "RAW")]⟩

/-- A filesystem where the source path stats as a directory. -/
def fsDirSrc : FS := ⟨[("cue.mod", dirInfo), ("crds.yaml", dirInfo)], []⟩

/-- Sample externals whose decoder yields no CRD at all. -/
def noCrdExt : Externals where
  readObjects := fun _ => .ok [sampleCM]
  marshal := fun o => .ok (sampleEnc o)
  generate := fun _ buf => .ok [("k", buf)]

/-- Sample externals whose generator always fails. -/
def failGenExt : Externals where
  readObjects := fun _ => .ok [sampleCRD]
  marshal := fun o => .ok (sampleEnc o)
  generate := fun _ _ => .error "generator boom"

/-- Sample externals whose decoder always fails. -/
def failDecodeExt : Externals where
  readObjects := fun _ => .error "bad yaml"
  marshal := fun o => .ok (sampleEnc o)
  generate := fun _ buf => .ok [("k", buf)]

/-- Sample externals whose encoder fails on a marked object. -/
def failMarshalExt : Externals where
  readObjects := fun _ => .ok [sampleCRD, ⟨"CustomResourceDefinition", "bad"⟩]
  marshal := fun o => if o.payload = "bad" then .error "no enc" else .ok (sampleEnc o)
  generate := fun _ buf => .ok [("k", buf)]

/-- C1: for every decoded sequence of Kubernetes objects, the CRD filter
produces exactly the concatenation, in input order, of the re-encodings of the
objects whose kind equals `CustomResourceDefinition`, each prefixed by a
`---\n` separator; other kinds contribute nothing, and when every object is a
CRD the output document count equals the input document count. -/
theorem crd_filter_concatenation (m : KObject → Except String String)
    (enc : KObject → String) (objs : List KObject)
    (h : ∀ o ∈ objs, o.kind = "CustomResourceDefinition" → m o = .ok (enc o)) :
    filterCRDs m objs "" =
      .ok (concatDocs ((objs.filter
          (fun o => o.kind = "CustomResourceDefinition")).map
        (fun o => "---\n" ++ enc o))) ∧
    ((∀ o ∈ objs, o.kind = "CustomResourceDefinition") →
      ((objs.filter (fun o => o.kind = "CustomResourceDefinition")).map
        (fun o => "---\n" ++ enc o)).length = objs.length) := by
  constructor
  · have hrun := filterCRDs_ok_of_marshal_ok m enc objs h ""
    simpa [String.empty_append] using hrun
  · intro hall
    have hfil : objs.filter (fun o => o.kind = "CustomResourceDefinition") = objs := by
      rw [List.filter_eq_self]
      intro a ha
      simpa using hall a ha
    rw [List.length_map, hfil]

/-- Witness for C1 at a concrete input. -/
theorem crd_filter_concatenation_witness :
    ((∀ o ∈ [sampleCRD, sampleCM], o.kind = "CustomResourceDefinition" →
        sampleExt.marshal o = .ok (sampleEnc o)) ∧
      filterCRDs sampleExt.marshal [sampleCRD, sampleCM] "" =
        .ok (concatDocs (([sampleCRD, sampleCM].filter
            (fun o => o.kind = "CustomResourceDefinition")).map
          (fun o => "---\n" ++ sampleEnc o))) ∧
      ((∀ o ∈ [sampleCRD, sampleCM], o.kind = "CustomResourceDefinition") →
        (([sampleCRD, sampleCM].filter
            (fun o => o.kind = "CustomResourceDefinition")).map
          (fun o => "---\n" ++ sampleEnc o)).length = [sampleCRD, sampleCM].length)) :=
  ⟨by decide,
   crd_filter_concatenation sampleExt.marshal sampleEnc [sampleCRD, sampleCM] (by decide)⟩

/-- C2: for every non-empty generation map returned by the generator (its keys
are distinct, being map keys), the writer visits the keys in strict
lexicographic byte-wise ascending order, and for each key `k` in that order
creates the directory `<module-root>/cue.mod/gen/<k>` — `MkdirAll` creating any
missing parents and succeeding when the directory already exists — and writes
the generated bytes for `k` to the fixed filename `types_gen.cue` inside it. -/
theorem writer_sorted_lex_order (g : Externals) (fs0 : FS) (args : List String)
    (f : String) (di fi : FileInfo) (data buf : String) (objs : List KObject)
    (crds : List (String × String))
    (hdir : fs0.statOf (pathJoin (modRootOf args) "cue.mod") = some di)
    (hdi : di.isDir = true)
    (hfile : fs0.statOf f = some fi) (hfi : fi.isRegular = true)
    (hdata : fs0.readFile f = some data)
    (hobjs : g.readObjects data = .ok objs)
    (hbuf : filterCRDs g.marshal objs "" = .ok buf)
    (hgen : g.generate (header ++ f) buf = .ok crds)
    (_hne : crds ≠ []) (hnd : (crds.map Prod.fst).Nodup) :
    List.Pairwise (fun a b => strLtb a b = true)
      (List.insertionSort (fun a b => strLeb a b = true) (crds.map Prod.fst)) ∧
    (List.insertionSort (fun a b => strLeb a b = true) (crds.map Prod.fst)).Perm
      (crds.map Prod.fst) ∧
    (runImportCrdCmd g fs0 args f).trace =
      [Event.stat (pathJoin (modRootOf args) "cue.mod"), Event.stat f,
       Event.openRead f, Event.generate buf] ++
      (List.insertionSort (fun a b => strLeb a b = true) (crds.map Prod.fst)).flatMap
        (fun k =>
          [Event.mkdirAll (genDir (pathJoin (modRootOf args) "cue.mod") k),
           Event.writeFile (genFile (pathJoin (modRootOf args) "cue.mod") k)
             ((lookupStr crds k).getD "")]) ∧
    (∀ fs p q, q = p ∨ q ∈ ancestors p → (FS.mkdirAll fs p).statOf q = some dirInfo) := by
  have hperm := List.perm_insertionSort (fun a b => strLeb a b = true) (crds.map Prod.fst)
  refine ⟨?_, hperm, ?_, fun fs p q h => statOf_mkdirAll fs p q h⟩
  · have hs := List.sorted_insertionSort (fun a b => strLeb a b = true) (crds.map Prod.fst)
    have hndks := hperm.nodup_iff.mpr hnd
    have hps : (List.insertionSort (fun a b => strLeb a b = true)
        (crds.map Prod.fst)).Pairwise (fun a b => strLeb a b = true ∧ a ≠ b) := by
      rw [List.pairwise_and_iff]
      exact ⟨hs, hndks⟩
    exact hps.imp (fun h => strLtb_of_strLeb_of_ne _ _ h.1 h.2)
  · rw [run_reaches_writer g fs0 args f di fi data buf objs crds hdir hdi hfile hfi
        hdata hobjs hbuf hgen, writeDefs_trace]

/-- Witness for C2 at a concrete input: the generator returns keys out of
order, and the write events happen in sorted key order. -/
theorem writer_sorted_lex_order_witness :
    (runImportCrdCmd sampleExt sampleFS [] "crds.yaml").trace =
      [Event.stat "cue.mod", Event.stat "crds.yaml", Event.openRead "crds.yaml",
       Event.generate "---\nkind: CustomResourceDefinition\n",
       Event.mkdirAll "cue.mod/gen/a.example.com",
       Event.writeFile "cue.mod/gen/a.example.com/types_gen.cue" "defs",
       Event.mkdirAll "cue.mod/gen/b.example.com",
       Event.writeFile "cue.mod/gen/b.example.com/types_gen.cue"
         "---\nkind: CustomResourceDefinition\n"] := by
  have h := (writer_sorted_lex_order sampleExt sampleFS [] "crds.yaml" dirInfo
    regularInfo "RAW" "---\nkind: CustomResourceDefinition\n" [sampleCRD, sampleCM]
    [("b.example.com", "---\nkind: CustomResourceDefinition\n"), ("a.example.com", "defs")]
    (by decide) (by decide) (by decide) (by decide) (by decide) (by decide) (by decide)
    (by decide) (by decide) (by decide)).2.2.1
  rw [h]
  decide

/-- C3 (code bug): each generated file begins with the fixed two-line banner
followed by a command line recording the source file path, but the recorded
command is `timoni import crd -f <path>` while the invocation documented by the
command's own Example is `timoni mod import crd -f <path>`: the recorded
command omits the `mod` subcommand, so it is not the exact invocation that
would regenerate the file. -/
theorem generated_header_command_mismatch :
    header ++ "crds.yaml" =
      "// Code generated by timoni. DO NOT EDIT.\n\n//timoni:generate timoni import crd -f crds.yaml" ∧
    importerGenerate (fun _ => .ok [("widgets.example.com", "\nBODY")])
        (header ++ "crds.yaml") "" =
      .ok [("widgets.example.com",
        "// Code generated by timoni. DO NOT EDIT.\n\n//timoni:generate timoni import crd -f crds.yaml\nBODY")] ∧
    documentedInvocation = "timoni mod import crd -f crds.yaml" ∧
    "timoni import crd -f crds.yaml" ≠ documentedInvocation :=
  ⟨by decide, by decide, by decide, by decide⟩

/-- C4: two runs that read the same module marker, the same source stat and the
same source bytes (the second run typically starting from the filesystem the
first one left behind) have the same outcome and the same trace, and every file
either run writes ends up holding exactly the written bytes in both final
filesystems, regardless of any prior content at that path. -/
theorem pipeline_rerun_byte_identical (g : Externals) (fs1 fs2 : FS)
    (args : List String) (f : String)
    (hroot : fs1.statOf (pathJoin (modRootOf args) "cue.mod") =
             fs2.statOf (pathJoin (modRootOf args) "cue.mod"))
    (hstat : fs1.statOf f = fs2.statOf f)
    (hread : fs1.readFile f = fs2.readFile f)
    (huniq : ∀ h b crds, g.generate h b = .ok crds → (crds.map Prod.fst).Nodup) :
    (runImportCrdCmd g fs1 args f).res = (runImportCrdCmd g fs2 args f).res ∧
    (runImportCrdCmd g fs1 args f).trace = (runImportCrdCmd g fs2 args f).trace ∧
    (∀ p c, Event.writeFile p c ∈ (runImportCrdCmd g fs1 args f).trace →
      (runImportCrdCmd g fs1 args f).fs.readFile p = some c ∧
      (runImportCrdCmd g fs2 args f).fs.readFile p = some c) := by
  rcases hM : fs1.statOf (pathJoin (modRootOf args) "cue.mod") with _ | di
  · have hM2 : fs2.statOf (pathJoin (modRootOf args) "cue.mod") = none :=
      hroot.symm.trans hM
    rw [run_module_invalid g fs1 args f (fun d h => Option.noConfusion (hM.symm.trans h)),
        run_module_invalid g fs2 args f (fun d h => Option.noConfusion (hM2.symm.trans h))]
    exact ⟨rfl, rfl, by intro p c h; simp at h⟩
  · have hM2 : fs2.statOf (pathJoin (modRootOf args) "cue.mod") = some di :=
      hroot.symm.trans hM
    cases hdi : di.isDir
    · rw [run_module_invalid g fs1 args f (fun d h => by rw [hM] at h; cases h; exact hdi),
          run_module_invalid g fs2 args f (fun d h => by rw [hM2] at h; cases h; exact hdi)]
      exact ⟨rfl, rfl, by intro p c h; simp at h⟩
    · rcases hF : fs1.statOf f with _ | fi
      · have hF2 : fs2.statOf f = none := hstat.symm.trans hF
        rw [run_source_invalid g fs1 args f di hM hdi
              (fun d h => Option.noConfusion (hF.symm.trans h)),
            run_source_invalid g fs2 args f di hM2 hdi
              (fun d h => Option.noConfusion (hF2.symm.trans h))]
        exact ⟨rfl, rfl, by intro p c h; simp at h⟩
      · have hF2 : fs2.statOf f = some fi := hstat.symm.trans hF
        cases hfi : fi.isRegular
        · rw [run_source_invalid g fs1 args f di hM hdi
                (fun d h => by rw [hF] at h; cases h; exact hfi),
              run_source_invalid g fs2 args f di hM2 hdi
                (fun d h => by rw [hF2] at h; cases h; exact hfi)]
          exact ⟨rfl, rfl, by intro p c h; simp at h⟩
        · rcases hD : fs1.readFile f with _ | data
          · have hD2 : fs2.readFile f = none := hread.symm.trans hD
            rw [run_open_failed g fs1 args f di fi hM hdi hF hfi hD,
                run_open_failed g fs2 args f di fi hM2 hdi hF2 hfi hD2]
            exact ⟨rfl, rfl, by intro p c h; simp at h⟩
          · have hD2 : fs2.readFile f = some data := hread.symm.trans hD
            rcases hO : g.readObjects data with e | objs
            · rw [run_decode_failed g fs1 args f di fi data e hM hdi hF hfi hD hO,
                  run_decode_failed g fs2 args f di fi data e hM2 hdi hF2 hfi hD2 hO]
              exact ⟨rfl, rfl, by intro p c h; simp at h⟩
            · rcases hB : filterCRDs g.marshal objs "" with e | buf
              · rw [run_filter_failed g fs1 args f di fi data e objs hM hdi hF hfi hD hO hB,
                    run_filter_failed g fs2 args f di fi data e objs hM2 hdi hF2 hfi hD2 hO hB]
                exact ⟨rfl, rfl, by intro p c h; simp at h⟩
              · rcases hG : g.generate (header ++ f) buf with e | crds
                · rw [run_generate_failed g fs1 args f di fi data buf e objs
                        hM hdi hF hfi hD hO hB hG,
                      run_generate_failed g fs2 args f di fi data buf e objs
                        hM2 hdi hF2 hfi hD2 hO hB hG]
                  exact ⟨rfl, rfl, by intro p c h; simp at h⟩
                · have hnd : (crds.map Prod.fst).Nodup := huniq _ _ _ hG
                  have hperm := List.perm_insertionSort
                    (fun a b => strLeb a b = true) (crds.map Prod.fst)
                  have hndks := hperm.nodup_iff.mpr hnd
                  rw [run_reaches_writer g fs1 args f di fi data buf objs crds
                        hM hdi hF hfi hD hO hB hG,
                      run_reaches_writer g fs2 args f di fi data buf objs crds
                        hM2 hdi hF2 hfi hD2 hO hB hG]
                  refine ⟨by rw [writeDefs_res, writeDefs_res],
                          by rw [writeDefs_trace, writeDefs_trace], ?_⟩
                  intro p c h
                  rw [writeDefs_trace] at h
                  rcases List.mem_append.mp h with h | h
                  · simp at h
                  · exact ⟨writeDefs_writeFile_event_content _ _ _ _ _ hndks p c h,
                           writeDefs_writeFile_event_content _ _ _ _ _ hndks p c h⟩

/-- Witness for C4: the second run starts from the filesystem produced by the
first run and yields the same result, trace and file contents. -/
theorem pipeline_rerun_byte_identical_witness :
    (runImportCrdCmd sampleExt sampleFS [] "crds.yaml").res =
      (runImportCrdCmd sampleExt
        (runImportCrdCmd sampleExt sampleFS [] "crds.yaml").fs [] "crds.yaml").res ∧
    (runImportCrdCmd sampleExt sampleFS [] "crds.yaml").trace =
      (runImportCrdCmd sampleExt
        (runImportCrdCmd sampleExt sampleFS [] "crds.yaml").fs [] "crds.yaml").trace ∧
    (∀ p c, Event.writeFile p c ∈ (runImportCrdCmd sampleExt sampleFS [] "crds.yaml").trace →
      (runImportCrdCmd sampleExt sampleFS [] "crds.yaml").fs.readFile p = some c ∧
      (runImportCrdCmd sampleExt
        (runImportCrdCmd sampleExt sampleFS [] "crds.yaml").fs [] "crds.yaml").fs.readFile p =
        some c) :=
  pipeline_rerun_byte_identical sampleExt sampleFS
    (runImportCrdCmd sampleExt sampleFS [] "crds.yaml").fs [] "crds.yaml"
    (by decide) (by decide) (by decide)
    (fun h b crds hc => by
      cases hc
      show (["b.example.com", "a.example.com"] : List String).Nodup
      decide)

/-- C5: when the module root lacks the `cue.mod` marker directory, the run
fails with the module-not-found error and its whole trace is the single marker
stat: the source YAML file is never opened or read, so module-root validation
strictly precedes source loading. -/
theorem module_validation_precedes_source_read (g : Externals) (fs0 : FS)
    (args : List String) (f : String)
    (hm : ∀ di, fs0.statOf (pathJoin (modRootOf args) "cue.mod") = some di →
      di.isDir = false) :
    runImportCrdCmd g fs0 args f =
      ⟨.error ("cue.mod not found in the module path " ++ modRootOf args), fs0,
       [Event.stat (pathJoin (modRootOf args) "cue.mod")]⟩ ∧
    Event.openRead f ∉ (runImportCrdCmd g fs0 args f).trace := by
  have h := run_module_invalid g fs0 args f hm
  refine ⟨h, ?_⟩
  rw [h]
  simp

/-- Witness for C5: a filesystem without `cue.mod` makes the run stop at the
marker stat. -/
theorem module_validation_precedes_source_read_witness :
    runImportCrdCmd sampleExt fsNoMod [] "crds.yaml" =
      ⟨.error ("cue.mod not found in the module path " ++ modRootOf []), fsNoMod,
       [Event.stat (pathJoin (modRootOf []) "cue.mod")]⟩ ∧
    Event.openRead "crds.yaml" ∉ (runImportCrdCmd sampleExt fsNoMod [] "crds.yaml").trace :=
  module_validation_precedes_source_read sampleExt fsNoMod [] "crds.yaml"
    (fun di h => Option.noConfusion
      ((by decide : fsNoMod.statOf (pathJoin (modRootOf ([] : List String)) "cue.mod") =
        none).symm.trans h))

/-- C6: when decoding succeeds but no decoded object is a CRD, the filter
produces the empty buffer without erroring, and the run passes that empty
buffer on to the generator. -/
theorem zero_crds_empty_buffer_passed (g : Externals) (fs0 : FS) (args : List String)
    (f : String) (di fi : FileInfo) (data : String) (objs : List KObject)
    (hdir : fs0.statOf (pathJoin (modRootOf args) "cue.mod") = some di)
    (hdi : di.isDir = true)
    (hfile : fs0.statOf f = some fi) (hfi : fi.isRegular = true)
    (hdata : fs0.readFile f = some data)
    (hobjs : g.readObjects data = .ok objs)
    (hnone : ∀ o ∈ objs, o.kind ≠ "CustomResourceDefinition") :
    filterCRDs g.marshal objs "" = .ok "" ∧
    Event.generate "" ∈ (runImportCrdCmd g fs0 args f).trace := by
  have hbuf : filterCRDs g.marshal objs "" = .ok "" := filterCRDs_no_crd _ _ hnone ""
  refine ⟨hbuf, ?_⟩
  rcases hG : g.generate (header ++ f) "" with e | crds
  · rw [run_generate_failed g fs0 args f di fi data "" e objs hdir hdi hfile hfi hdata
        hobjs hbuf hG]
    simp
  · rw [run_reaches_writer g fs0 args f di fi data "" objs crds hdir hdi hfile hfi hdata
        hobjs hbuf hG, writeDefs_trace]
    simp

/-- Witness for C6: a decode result with only a ConfigMap yields the empty
buffer and the generator is still invoked on it. -/
theorem zero_crds_empty_buffer_passed_witness :
    filterCRDs noCrdExt.marshal [sampleCM] "" = .ok "" ∧
    Event.generate "" ∈ (runImportCrdCmd noCrdExt sampleFS [] "crds.yaml").trace :=
  zero_crds_empty_buffer_passed noCrdExt sampleFS [] "crds.yaml" dirInfo regularInfo
    "RAW" [sampleCM] (by decide) (by decide) (by decide) (by decide) (by decide)
    (by decide) (by decide)

/-- C7: when the source path stats successfully but not as a regular file (for
example a directory), the run fails with the path-not-found error right after
the two stats: the path is never opened or read. -/
theorem source_not_regular_not_read (g : Externals) (fs0 : FS) (args : List String)
    (f : String) (di : FileInfo)
    (hdir : fs0.statOf (pathJoin (modRootOf args) "cue.mod") = some di)
    (hdi : di.isDir = true)
    (hs : ∀ fi, fs0.statOf f = some fi → fi.isRegular = false) :
    runImportCrdCmd g fs0 args f =
      ⟨.error ("path not found: " ++ f), fs0,
       [Event.stat (pathJoin (modRootOf args) "cue.mod"), Event.stat f]⟩ ∧
    Event.openRead f ∉ (runImportCrdCmd g fs0 args f).trace := by
  have h := run_source_invalid g fs0 args f di hdir hdi hs
  refine ⟨h, ?_⟩
  rw [h]
  simp

/-- Witness for C7: a source path that stats as a directory is rejected without
being opened. -/
theorem source_not_regular_not_read_witness :
    runImportCrdCmd sampleExt fsDirSrc [] "crds.yaml" =
      ⟨.error ("path not found: " ++ "crds.yaml"), fsDirSrc,
       [Event.stat (pathJoin (modRootOf []) "cue.mod"), Event.stat "crds.yaml"]⟩ ∧
    Event.openRead "crds.yaml" ∉ (runImportCrdCmd sampleExt fsDirSrc [] "crds.yaml").trace :=
  source_not_regular_not_read sampleExt fsDirSrc [] "crds.yaml" dirInfo (by decide)
    (by decide)
    (fun fi h => by
      rw [(by decide : fsDirSrc.statOf "crds.yaml" = some dirInfo)] at h
      cases h
      decide)

/-- C8 (amended): a decoding failure is propagated wrapped with parsing-stage
context, as the claim says; a generator failure, however, is returned to the
caller verbatim — the code does `return err` without adding any
generation-stage context. -/
theorem error_propagation_policy (g : Externals) (fs0 : FS) (args : List String)
    (f : String) (di fi : FileInfo) (data : String)
    (hdir : fs0.statOf (pathJoin (modRootOf args) "cue.mod") = some di)
    (hdi : di.isDir = true)
    (hfile : fs0.statOf f = some fi) (hfi : fi.isRegular = true)
    (hdata : fs0.readFile f = some data) :
    (∀ e, g.readObjects data = .error e →
      (runImportCrdCmd g fs0 args f).res = .error ("parsing CRDs failed: " ++ e)) ∧
    (∀ objs buf e, g.readObjects data = .ok objs →
      filterCRDs g.marshal objs "" = .ok buf →
      g.generate (header ++ f) buf = .error e →
      (runImportCrdCmd g fs0 args f).res = .error e) := by
  constructor
  · intro e he
    rw [run_decode_failed g fs0 args f di fi data e hdir hdi hfile hfi hdata he]
  · intro objs buf e h1 h2 h3
    rw [run_generate_failed g fs0 args f di fi data buf e objs hdir hdi hfile hfi hdata
        h1 h2 h3]

/-- Witness for C8 (amended), decode branch: a decoder error surfaces wrapped
as parsing context. -/
theorem error_propagation_policy_witness :
    (runImportCrdCmd failDecodeExt sampleFS [] "crds.yaml").res =
      .error ("parsing CRDs failed: " ++ "bad yaml") :=
  (error_propagation_policy failDecodeExt sampleFS [] "crds.yaml" dirInfo regularInfo
    "RAW" (by decide) (by decide) (by decide) (by decide) (by decide)).1
    "bad yaml" (by decide)

/-- Counterexample for C8 as stated: at a concrete input whose generator fails
with `generator boom`, the run returns exactly that message — the error equals
the bare cause, so no context identifying a generation failure was added. -/
theorem generation_error_returned_verbatim :
    (runImportCrdCmd failGenExt sampleFS [] "crds.yaml").res =
      .error "generator boom" := by decide

/-- C9: if re-encoding one of the selected CRD objects fails, the filter — and
with it the whole run — aborts with the marshal error wrapped around the cause,
whatever objects follow the failing one: they are never processed. -/
theorem marshal_failure_aborts_run (g : Externals) (fs0 : FS) (args : List String)
    (f : String) (di fi : FileInfo) (data : String) (pre : List KObject)
    (bad : KObject) (enc : KObject → String) (cause : String)
    (hdir : fs0.statOf (pathJoin (modRootOf args) "cue.mod") = some di)
    (hdi : di.isDir = true)
    (hfile : fs0.statOf f = some fi) (hfi : fi.isRegular = true)
    (hdata : fs0.readFile f = some data)
    (hpre : ∀ o ∈ pre, o.kind = "CustomResourceDefinition" → g.marshal o = .ok (enc o))
    (hbadk : bad.kind = "CustomResourceDefinition")
    (hbadm : g.marshal bad = .error cause) :
    ∀ rest : List KObject,
      filterCRDs g.marshal (pre ++ bad :: rest) "" =
        .error ("marshaling CRD failed: " ++ cause) ∧
      (g.readObjects data = .ok (pre ++ bad :: rest) →
        (runImportCrdCmd g fs0 args f).res =
          .error ("marshaling CRD failed: " ++ cause)) := by
  intro rest
  have hfil := filterCRDs_error_at_first_bad g.marshal enc bad cause hbadk hbadm pre
    hpre rest ""
  refine ⟨hfil, fun hobjs => ?_⟩
  rw [run_filter_failed g fs0 args f di fi data ("marshaling CRD failed: " ++ cause)
      (pre ++ bad :: rest) hdir hdi hfile hfi hdata hobjs hfil]

/-- Witness for C9: the second CRD fails to encode and the run aborts with the
marshal error. -/
theorem marshal_failure_aborts_run_witness :
    filterCRDs failMarshalExt.marshal
        ([sampleCRD] ++ ⟨"CustomResourceDefinition", "bad"⟩ :: []) "" =
      .error ("marshaling CRD failed: " ++ "no enc") ∧
    (failMarshalExt.readObjects "RAW" =
        .ok ([sampleCRD] ++ ⟨"CustomResourceDefinition", "bad"⟩ :: []) →
      (runImportCrdCmd failMarshalExt sampleFS [] "crds.yaml").res =
        .error ("marshaling CRD failed: " ++ "no enc")) :=
  marshal_failure_aborts_run failMarshalExt sampleFS [] "crds.yaml" dirInfo regularInfo
    "RAW" [sampleCRD] ⟨"CustomResourceDefinition", "bad"⟩ sampleEnc "no enc"
    (by decide) (by decide) (by decide) (by decide) (by decide) (by decide) (by decide)
    (by decide) []

/-- C10: with no positional module-path argument the module root is the empty
string, the marker is resolved as the relative path `cue.mod` (under the
process working directory, as relative paths are), and the run proceeds or
fails according to that directory instead of rejecting the missing argument:
when the marker is missing the module error is returned, and when it exists the
run goes on to stat the source file. -/
theorem missing_module_arg_uses_relative_cuemod (g : Externals) (fs0 : FS) (f : String) :
    modRootOf [] = "" ∧
    pathJoin (modRootOf []) "cue.mod" = "cue.mod" ∧
    (fs0.statOf "cue.mod" = none →
      runImportCrdCmd g fs0 [] f =
        ⟨.error "cue.mod not found in the module path ", fs0, [Event.stat "cue.mod"]⟩) ∧
    (∀ di, fs0.statOf "cue.mod" = some di → di.isDir = true →
      (runImportCrdCmd g fs0 [] f).trace.take 2 = [Event.stat "cue.mod", Event.stat f]) := by
  have hp : pathJoin (modRootOf ([] : List String)) "cue.mod" = "cue.mod" := by decide
  refine ⟨rfl, hp, ?_, ?_⟩
  · intro hnone
    have h := run_module_invalid g fs0 [] f
      (fun di hh => Option.noConfusion ((hp ▸ hnone).symm.trans hh))
    rw [h, hp]
    rfl
  · intro di h hdi
    have hdir : fs0.statOf (pathJoin (modRootOf ([] : List String)) "cue.mod") = some di := by
      rw [hp]; exact h
    rw [run_valid_module g fs0 [] f di hdir hdi, hp]
    exact loadSource_trace_take_two g fs0 "cue.mod" f

/-- Witness for C10: with no argument and a marker directory in the working
directory, the run proceeds to stat the source file. -/
theorem missing_module_arg_uses_relative_cuemod_witness :
    (runImportCrdCmd sampleExt sampleFS [] "crds.yaml").trace.take 2 =
      [Event.stat "cue.mod", Event.stat "crds.yaml"] :=
  (missing_module_arg_uses_relative_cuemod sampleExt sampleFS "crds.yaml").2.2.2
    dirInfo (by decide) (by decide)

end Timoni
